import Mathlib

/-!
Verification of the aggregation header `vk_mem_alloc.hpp` of
VulkanMemoryAllocator-Hpp.  The file is preprocessor-only: an inclusion
guard, two dependency includes, a guarded namespace-name macro definition,
a stringified-namespace macro definition, and four wrapper-header includes.

We embed the relevant fragment of the C preprocessor shallowly: a
translation unit is a list of lines, a macro environment is an association
list from macro names to bodies, and processing a list of lines threads a
state holding the macro environment, the trace of definition/inclusion
events (each inclusion event records the macro environment in force at the
point of inclusion), the diagnostics emitted (`#error` / `#warning`), and
the ordinary C++ text lines contributed to the translation unit.
Conditional directives are handled with a skip depth, exactly as a
preprocessor skips a failed conditional group up to its matching `#endif`.
-/

/-- Body of an object-like macro definition.  `text s` is a plain
replacement token sequence; `stringifyOf a` is the body
`VULKAN_HPP_STRINGIFY(a)`, an application of the Vulkan-Hpp stringify
macro to the token `a`. -/
inductive MBody where
  | text (s : String)
  | stringifyOf (a : String)
deriving DecidableEq, Repr

/-- A macro environment: macro names mapped to their bodies, most recent
definition first. -/
abbrev Env := List (String × MBody)

/-- One line of a preprocessor-level translation unit.  `textL` is an
ordinary C++ source line (a declaration or other token sequence that the
preprocessor passes through to the compiler proper). -/
inductive PPLine where
  | ifndefL (n : String)
  | ifNotDefinedL (n : String)
  | defineL (n : String) (b : MBody)
  | includeL (p : String)
  | endifL
  | errorL (msg : String)
  | warningL (msg : String)
  | textL (s : String)
  | blankL
deriving DecidableEq, Repr

/-- An observable event of preprocessing: a macro became defined, or a
header was included.  An inclusion event records the macro environment in
force at the point the included header begins processing. -/
inductive Event where
  | defined (n : String) (b : MBody)
  | included (p : String) (e : Env)
deriving DecidableEq, Repr

/-- State threaded through preprocessing: the macro environment, the event
trace in order, the diagnostics emitted by `#error` / `#warning`, and the
ordinary C++ text lines contributed to the translation unit. -/
structure PPState where
  env : Env
  evs : List Event
  diags : List String
  emitted : List String
deriving DecidableEq, Repr

/-- Whether a macro name is defined in an environment (the `defined(X)`
predicate of the preprocessor). -/
def isDefined : Env → String → Bool
  | [], _ => false
  | (k, _) :: es, n => n == k || isDefined es n

/-- Process a list of lines.  `skip` is the current conditional-skip
depth: when positive, lines are discarded, nested conditionals deepen the
skip, and `#endif` shallows it; at depth zero directives take effect. -/
def processLines : List PPLine → Nat → PPState → PPState
  | [], _, st => st
  | l :: ls, 0, st =>
    match l with
    | .ifndefL n => processLines ls (if isDefined st.env n then 1 else 0) st
    | .ifNotDefinedL n => processLines ls (if isDefined st.env n then 1 else 0) st
    | .defineL n b =>
        processLines ls 0
          { st with env := (n, b) :: st.env, evs := st.evs ++ [.defined n b] }
    | .includeL p =>
        processLines ls 0 { st with evs := st.evs ++ [.included p st.env] }
    | .endifL => processLines ls 0 st
    | .errorL m => processLines ls 0 { st with diags := st.diags ++ [m] }
    | .warningL m => processLines ls 0 { st with diags := st.diags ++ [m] }
    | .textL s => processLines ls 0 { st with emitted := st.emitted ++ [s] }
    | .blankL => processLines ls 0 st
  | l :: ls, k + 1, st =>
    match l with
    | .ifndefL _ => processLines ls (k + 2) st
    | .ifNotDefinedL _ => processLines ls (k + 2) st
    | .endifL => processLines ls k st
    | _ => processLines ls (k + 1) st

/-- Process a translation unit from a given initial macro environment. -/
def processTU (lines : List PPLine) (m : Env) : PPState :=
  processLines lines 0 ⟨m, [], [], []⟩

/-- The file `vk_mem_alloc.hpp`, line by line. -/
def vk_mem_alloc_hpp : List PPLine :=
  [ .ifndefL "VULKAN_MEMORY_ALLOCATOR_HPP",
    .defineL "VULKAN_MEMORY_ALLOCATOR_HPP" (.text ""),
    .blankL,
    .includeL "vk_mem_alloc.h",
    .includeL "vulkan/vulkan.hpp",
    .blankL,
    .ifNotDefinedL "VMA_HPP_NAMESPACE",
    .defineL "VMA_HPP_NAMESPACE" (.text "vma"),
    .endifL,
    .blankL,
    .defineL "VMA_HPP_NAMESPACE_STRING" (.stringifyOf "VMA_HPP_NAMESPACE"),
    .blankL,
    .includeL "vk_mem_alloc_enums.hpp",
    .includeL "vk_mem_alloc_handles.hpp",
    .includeL "vk_mem_alloc_structs.hpp",
    .includeL "vk_mem_alloc_funcs.hpp",
    .blankL,
    .endifL ]

/-- Modelled from the spec: full expansion of a single token in a macro
environment.  `VULKAN_HPP_STRINGIFY` comes from the Vulkan-Hpp dependency
header, which is not part of this repository's sources; per the spec, the
stringified-namespace token yields the textual value the namespace macro
has at the point of expansion, so `stringifyOf a` expands its argument
fully and then surrounds the result with quotation marks.  `fuel` bounds
the expansion depth. -/
def expandTok (m : Env) : Nat → String → String
  | 0, t => t
  | fuel + 1, t =>
    match List.lookup t m with
    | some (MBody.text b) => expandTok m fuel b
    | some (MBody.stringifyOf a) => "\"" ++ expandTok m fuel a ++ "\""
    | none => t

/-- The paths included by a trace, in order. -/
def includedPaths (evs : List Event) : List String :=
  evs.filterMap fun e =>
    match e with
    | .included p _ => some p
    | _ => none

/-- The macro names defined by a trace, in order. -/
def definedNames (evs : List Event) : List String :=
  evs.filterMap fun e =>
    match e with
    | .defined n _ => some n
    | _ => none

/-- Position and environment snapshot of the first inclusion of a path in
a trace. -/
def findIncluded : List Event → String → Option (Nat × Env)
  | [], _ => none
  | .included q e :: evs, p =>
      if p == q then some (0, e)
      else (findIncluded evs p).map fun x => (x.1 + 1, x.2)
  | .defined _ _ :: evs, p =>
      (findIncluded evs p).map fun x => (x.1 + 1, x.2)

/-- Value bound to `VMA_HPP_NAMESPACE` in the environment in force when a
given header is first included. -/
def nsAtInclude (evs : List Event) (p : String) : Option (Option MBody) :=
  (findIncluded evs p).map fun x => List.lookup "VMA_HPP_NAMESPACE" x.2

/-- The four generated wrapper headers, in inclusion order. -/
def wrapperPaths : List String :=
  [ "vk_mem_alloc_enums.hpp", "vk_mem_alloc_handles.hpp",
    "vk_mem_alloc_structs.hpp", "vk_mem_alloc_funcs.hpp" ]

/-- Number of `#include` directives in a list of lines. -/
def countIncludeLines (ls : List PPLine) : Nat :=
  ls.countP fun l =>
    match l with
    | .includeL _ => true
    | _ => false

/-- Number of `#define` directives in a list of lines. -/
def countDefineLines (ls : List PPLine) : Nat :=
  ls.countP fun l =>
    match l with
    | .defineL _ _ => true
    | _ => false

/-- Number of `#define` directives defining a given macro name. -/
def countDefinesOfName (ls : List PPLine) (n : String) : Nat :=
  ls.countP fun l =>
    match l with
    | .defineL k _ => k == n
    | _ => false

/-- Whether a line is a preprocessor directive or blank, i.e. contributes
no C++ declaration or other token text of its own. -/
def isDirectiveOrBlank (l : PPLine) : Bool :=
  match l with
  | .textL _ => false
  | _ => true

/-- Whether a line is free of diagnostic directives. -/
def lineNoDiag (l : PPLine) : Bool :=
  match l with
  | .errorL _ => false
  | .warningL _ => false
  | _ => true

/-- For a wrapper path: its first inclusion exists in the trace, both
namespace macros are defined in the environment at that point, and the
first inclusions of the two dependency headers occur strictly earlier. -/
def wrapperInvariantAt (evs : List Event) (p : String) : Bool :=
  match findIncluded evs p with
  | none => false
  | some (i, e) =>
      isDefined e "VMA_HPP_NAMESPACE" && isDefined e "VMA_HPP_NAMESPACE_STRING" &&
      (match findIncluded evs "vk_mem_alloc.h" with
       | some (j, _) => Nat.blt j i
       | none => false) &&
      (match findIncluded evs "vulkan/vulkan.hpp" with
       | some (k, _) => Nat.blt k i
       | none => false)

/-- Environment right after the inclusion guard macro is defined. -/
def envGuard (m : Env) : Env := ("VULKAN_MEMORY_ALLOCATOR_HPP", MBody.text "") :: m

/-- Final environment of the header when the namespace macro was not
predefined. -/
def envFresh (m : Env) : Env :=
  ("VMA_HPP_NAMESPACE_STRING", MBody.stringifyOf "VMA_HPP_NAMESPACE") ::
  ("VMA_HPP_NAMESPACE", MBody.text "vma") :: envGuard m

/-- Final environment of the header when the namespace macro was
predefined. -/
def envPre (m : Env) : Env :=
  ("VMA_HPP_NAMESPACE_STRING", MBody.stringifyOf "VMA_HPP_NAMESPACE") :: envGuard m

theorem isDefined_eq (m : Env) (n : String) :
    isDefined m n = (List.lookup n m).isSome := by
  induction m with
  | nil => rfl
  | cons kv tl ih =>
    obtain ⟨k, v⟩ := kv
    cases h : n == k <;> simp [isDefined, List.lookup, h, ih]

theorem processTU_fresh (m : Env)
    (hg : isDefined m "VULKAN_MEMORY_ALLOCATOR_HPP" = false)
    (hn : isDefined m "VMA_HPP_NAMESPACE" = false) :
    processTU vk_mem_alloc_hpp m =
      ⟨envFresh m,
       [ .defined "VULKAN_MEMORY_ALLOCATOR_HPP" (.text ""),
         .included "vk_mem_alloc.h" (envGuard m),
         .included "vulkan/vulkan.hpp" (envGuard m),
         .defined "VMA_HPP_NAMESPACE" (.text "vma"),
         .defined "VMA_HPP_NAMESPACE_STRING" (.stringifyOf "VMA_HPP_NAMESPACE"),
         .included "vk_mem_alloc_enums.hpp" (envFresh m),
         .included "vk_mem_alloc_handles.hpp" (envFresh m),
         .included "vk_mem_alloc_structs.hpp" (envFresh m),
         .included "vk_mem_alloc_funcs.hpp" (envFresh m) ],
       [], []⟩ := by
  simp [processTU, vk_mem_alloc_hpp, processLines, isDefined, hg, hn,
    envFresh, envGuard]

theorem processTU_pre (m : Env)
    (hg : isDefined m "VULKAN_MEMORY_ALLOCATOR_HPP" = false)
    (hn : isDefined m "VMA_HPP_NAMESPACE" = true) :
    processTU vk_mem_alloc_hpp m =
      ⟨envPre m,
       [ .defined "VULKAN_MEMORY_ALLOCATOR_HPP" (.text ""),
         .included "vk_mem_alloc.h" (envGuard m),
         .included "vulkan/vulkan.hpp" (envGuard m),
         .defined "VMA_HPP_NAMESPACE_STRING" (.stringifyOf "VMA_HPP_NAMESPACE"),
         .included "vk_mem_alloc_enums.hpp" (envPre m),
         .included "vk_mem_alloc_handles.hpp" (envPre m),
         .included "vk_mem_alloc_structs.hpp" (envPre m),
         .included "vk_mem_alloc_funcs.hpp" (envPre m) ],
       [], []⟩ := by
  simp [processTU, vk_mem_alloc_hpp, processLines, isDefined, hg, hn,
    envPre, envGuard]

theorem processTU_guarded (m : Env)
    (hg : isDefined m "VULKAN_MEMORY_ALLOCATOR_HPP" = true) :
    processTU vk_mem_alloc_hpp m = ⟨m, [], [], []⟩ := by
  simp [processTU, vk_mem_alloc_hpp, processLines, hg]

/-- C1: if `VMA_HPP_NAMESPACE` is not defined when the header is
processed, the header defines it to the fixed identifier `vma`; if the
including project defined it beforehand (to any body `b`), that prior
definition is left unchanged — it is still the binding after processing,
and it is the binding in force when each of the four wrapper headers is
included. -/
theorem vma_hpp_namespace_default_or_override (m : Env)
    (hg : isDefined m "VULKAN_MEMORY_ALLOCATOR_HPP" = false) :
    (isDefined m "VMA_HPP_NAMESPACE" = false →
       List.lookup "VMA_HPP_NAMESPACE" (processTU vk_mem_alloc_hpp m).env
         = some (MBody.text "vma"))
    ∧ (∀ b : MBody, List.lookup "VMA_HPP_NAMESPACE" m = some b →
       List.lookup "VMA_HPP_NAMESPACE" (processTU vk_mem_alloc_hpp m).env = some b
       ∧ (wrapperPaths.all fun p =>
            decide (nsAtInclude (processTU vk_mem_alloc_hpp m).evs p
              = some (some b))) = true) := by
  constructor
  · intro hn
    simp [processTU_fresh m hg hn, envFresh, envGuard, List.lookup]
  · intro b hb
    have hn : isDefined m "VMA_HPP_NAMESPACE" = true := by
      rw [isDefined_eq, hb]; rfl
    simp [processTU_pre m hg hn, envPre, envGuard, List.lookup, hb,
      wrapperPaths, nsAtInclude, findIncluded]

/-- Witness for C1: from an empty environment the namespace macro ends up
bound to `vma`; predefined to `custom`, it stays `custom`, also at each
wrapper inclusion. -/
theorem vma_hpp_namespace_default_or_override_witness :
    List.lookup "VMA_HPP_NAMESPACE" (processTU vk_mem_alloc_hpp []).env
      = some (MBody.text "vma")
    ∧ (List.lookup "VMA_HPP_NAMESPACE"
         (processTU vk_mem_alloc_hpp
           [("VMA_HPP_NAMESPACE", MBody.text "custom")]).env
       = some (MBody.text "custom")
       ∧ (wrapperPaths.all fun p =>
            decide (nsAtInclude (processTU vk_mem_alloc_hpp
                [("VMA_HPP_NAMESPACE", MBody.text "custom")]).evs p
              = some (some (MBody.text "custom")))) = true) :=
  ⟨(vma_hpp_namespace_default_or_override [] (by decide)).1 (by decide),
   (vma_hpp_namespace_default_or_override
      [("VMA_HPP_NAMESPACE", MBody.text "custom")] (by decide)).2
     (MBody.text "custom") (by decide)⟩

/-- C2: the header binds `VMA_HPP_NAMESPACE_STRING` to the body
`VULKAN_HPP_STRINGIFY(VMA_HPP_NAMESPACE)`, and expanding that token in
any environment carrying this binding yields exactly the quotation of the
full expansion of `VMA_HPP_NAMESPACE` in the environment at the point of
expansion — expansion is deferred to the use site, not fixed at the
definition site. -/
theorem vma_hpp_namespace_string_deferred_expansion (m : Env) (fuel : Nat)
    (hg : isDefined m "VULKAN_MEMORY_ALLOCATOR_HPP" = false) :
    List.lookup "VMA_HPP_NAMESPACE_STRING" (processTU vk_mem_alloc_hpp m).env
      = some (MBody.stringifyOf "VMA_HPP_NAMESPACE")
    ∧ ∀ e : Env,
        List.lookup "VMA_HPP_NAMESPACE_STRING" e
          = some (MBody.stringifyOf "VMA_HPP_NAMESPACE") →
        expandTok e (fuel + 1) "VMA_HPP_NAMESPACE_STRING"
          = "\"" ++ expandTok e fuel "VMA_HPP_NAMESPACE" ++ "\"" := by
  constructor
  · cases hn : isDefined m "VMA_HPP_NAMESPACE"
    · simp [processTU_fresh m hg hn, envFresh, envGuard, List.lookup]
    · simp [processTU_pre m hg hn, envPre, envGuard, List.lookup]
  · intro e he
    simp [expandTok, he]

/-- Witness for C2: after processing from the empty environment, the
stringified-namespace token expands to the quotation of the namespace
macro's expansion. -/
theorem vma_hpp_namespace_string_deferred_expansion_witness :
    List.lookup "VMA_HPP_NAMESPACE_STRING" (processTU vk_mem_alloc_hpp []).env
      = some (MBody.stringifyOf "VMA_HPP_NAMESPACE")
    ∧ expandTok (processTU vk_mem_alloc_hpp []).env 2 "VMA_HPP_NAMESPACE_STRING"
      = "\"" ++ expandTok (processTU vk_mem_alloc_hpp []).env 1 "VMA_HPP_NAMESPACE"
        ++ "\"" :=
  ⟨(vma_hpp_namespace_string_deferred_expansion [] 1 (by decide)).1,
   (vma_hpp_namespace_string_deferred_expansion [] 1 (by decide)).2 _ (by decide)⟩

/-- C3: processing the header twice in the same translation unit is
equivalent to processing it once, from every initial macro environment:
the inclusion guard `VULKAN_MEMORY_ALLOCATOR_HPP` makes the whole body
take effect at most once, so re-inclusion adds no definitions, no events,
no diagnostics and no text. -/
theorem include_guard_makes_reinclusion_noop (m : Env) :
    processTU (vk_mem_alloc_hpp ++ vk_mem_alloc_hpp) m
      = processTU vk_mem_alloc_hpp m := by
  cases hg : isDefined m "VULKAN_MEMORY_ALLOCATOR_HPP"
  · cases hn : isDefined m "VMA_HPP_NAMESPACE" <;>
      simp [processTU, vk_mem_alloc_hpp, processLines, isDefined, hg, hn]
  · simp [processTU, vk_mem_alloc_hpp, processLines, isDefined, hg]

/-- C4 counterexample: the file contains six `#include` directives, not
four, so its entire content is not four include statements plus one
namespace macro. -/
theorem file_has_six_not_four_includes :
    countIncludeLines vk_mem_alloc_hpp = 6
    ∧ ¬ (countIncludeLines vk_mem_alloc_hpp = 4
         ∧ countDefineLines vk_mem_alloc_hpp = 1) := by decide

/-- C4 amended: the file consists only of preprocessor directives and
blank lines — exactly six `#include` directives (two dependency headers
and the four wrapper headers) and exactly three `#define` directives, of
which exactly one defines the namespace-name macro `VMA_HPP_NAMESPACE`
(the other two define the inclusion-guard macro and the
stringified-namespace macro). -/
theorem file_shape_counts :
    countIncludeLines vk_mem_alloc_hpp = 6
    ∧ countDefineLines vk_mem_alloc_hpp = 3
    ∧ countDefinesOfName vk_mem_alloc_hpp "VMA_HPP_NAMESPACE" = 1
    ∧ vk_mem_alloc_hpp.all isDirectiveOrBlank = true := by decide

/-- C5: on any first inclusion (guard not yet defined), the headers
included are exactly the two dependencies followed by all four wrapper
headers, whatever the rest of the initial environment is — so the four
wrapper includes are unconditional, with no feature detection and no
fallback selection. -/
theorem wrapper_includes_unconditional (m : Env)
    (hg : isDefined m "VULKAN_MEMORY_ALLOCATOR_HPP" = false) :
    includedPaths (processTU vk_mem_alloc_hpp m).evs
      = ["vk_mem_alloc.h", "vulkan/vulkan.hpp"] ++ wrapperPaths := by
  cases hn : isDefined m "VMA_HPP_NAMESPACE"
  · simp [processTU_fresh m hg hn, includedPaths, wrapperPaths]
  · simp [processTU_pre m hg hn, includedPaths, wrapperPaths]

/-- Witness for C5 at the empty initial environment. -/
theorem wrapper_includes_unconditional_witness :
    includedPaths (processTU vk_mem_alloc_hpp []).evs
      = ["vk_mem_alloc.h", "vulkan/vulkan.hpp"] ++ wrapperPaths :=
  wrapper_includes_unconditional [] (by decide)

/-- C6: the trace starts with the guard definition followed by the
inclusion of `vk_mem_alloc.h` and then `vulkan/vulkan.hpp`, in that fixed
order; every macro definition after that point is one of the two
namespace macros, the remaining inclusions are exactly the four wrapper
headers, and no diagnostic is emitted anywhere. -/
theorem dependency_includes_precede_all (m : Env)
    (hg : isDefined m "VULKAN_MEMORY_ALLOCATOR_HPP" = false) :
    (processTU vk_mem_alloc_hpp m).evs.take 3
      = [ .defined "VULKAN_MEMORY_ALLOCATOR_HPP" (.text ""),
          .included "vk_mem_alloc.h"
            (("VULKAN_MEMORY_ALLOCATOR_HPP", MBody.text "") :: m),
          .included "vulkan/vulkan.hpp"
            (("VULKAN_MEMORY_ALLOCATOR_HPP", MBody.text "") :: m) ]
    ∧ definedNames ((processTU vk_mem_alloc_hpp m).evs.drop 3)
        = (if isDefined m "VMA_HPP_NAMESPACE" then ["VMA_HPP_NAMESPACE_STRING"]
           else ["VMA_HPP_NAMESPACE", "VMA_HPP_NAMESPACE_STRING"])
    ∧ includedPaths ((processTU vk_mem_alloc_hpp m).evs.drop 3) = wrapperPaths
    ∧ (processTU vk_mem_alloc_hpp m).diags = [] := by
  cases hn : isDefined m "VMA_HPP_NAMESPACE"
  · simp [processTU_fresh m hg hn, envFresh, envGuard, definedNames,
      includedPaths, wrapperPaths]
  · simp [processTU_pre m hg hn, envPre, envGuard, definedNames,
      includedPaths, wrapperPaths]

/-- Witness for C6 at the empty initial environment. -/
theorem dependency_includes_precede_all_witness :
    (processTU vk_mem_alloc_hpp []).evs.take 3
      = [ .defined "VULKAN_MEMORY_ALLOCATOR_HPP" (.text ""),
          .included "vk_mem_alloc.h"
            [("VULKAN_MEMORY_ALLOCATOR_HPP", MBody.text "")],
          .included "vulkan/vulkan.hpp"
            [("VULKAN_MEMORY_ALLOCATOR_HPP", MBody.text "")] ]
    ∧ definedNames ((processTU vk_mem_alloc_hpp []).evs.drop 3)
        = (if isDefined [] "VMA_HPP_NAMESPACE" then ["VMA_HPP_NAMESPACE_STRING"]
           else ["VMA_HPP_NAMESPACE", "VMA_HPP_NAMESPACE_STRING"])
    ∧ includedPaths ((processTU vk_mem_alloc_hpp []).evs.drop 3) = wrapperPaths
    ∧ (processTU vk_mem_alloc_hpp []).diags = [] :=
  dependency_includes_precede_all [] (by decide)

/-- C7: from every initial macro environment — guard predefined or not,
namespace predefined or not — processing the file emits no diagnostic of
its own, and indeed no line of the file is an `#error` or `#warning`
directive. -/
theorem no_diagnostics_of_its_own (m : Env) :
    (processTU vk_mem_alloc_hpp m).diags = []
    ∧ vk_mem_alloc_hpp.all lineNoDiag = true := by
  refine ⟨?_, by decide⟩
  cases hg : isDefined m "VULKAN_MEMORY_ALLOCATOR_HPP"
  · cases hn : isDefined m "VMA_HPP_NAMESPACE"
    · simp [processTU_fresh m hg hn]
    · simp [processTU_pre m hg hn]
  · simp [processTU_guarded m hg]

/-- C8: from every initial macro environment, processing the file
contributes no C++ text of its own to the translation unit — no types,
functions, variables, namespaces or classes — and indeed every line of
the file is a preprocessor directive or blank. -/
theorem contributes_no_declarations (m : Env) :
    (processTU vk_mem_alloc_hpp m).emitted = []
    ∧ vk_mem_alloc_hpp.all isDirectiveOrBlank = true := by
  refine ⟨?_, by decide⟩
  cases hg : isDefined m "VULKAN_MEMORY_ALLOCATOR_HPP"
  · cases hn : isDefined m "VMA_HPP_NAMESPACE"
    · simp [processTU_fresh m hg hn]
    · simp [processTU_pre m hg hn]
  · simp [processTU_guarded m hg]

/-- C9: even when the including project predefined
`VMA_HPP_NAMESPACE_STRING` (to any body `b`), the header redefines it
anyway: after processing it is bound to
`VULKAN_HPP_STRINGIFY(VMA_HPP_NAMESPACE)` and a definition event for it
occurred — unlike `VMA_HPP_NAMESPACE`, it has no prior-definition
guard. -/
theorem vma_hpp_namespace_string_unguarded_redefinition (m : Env) (b : MBody)
    (hg : isDefined m "VULKAN_MEMORY_ALLOCATOR_HPP" = false)
    (_hb : List.lookup "VMA_HPP_NAMESPACE_STRING" m = some b) :
    List.lookup "VMA_HPP_NAMESPACE_STRING" (processTU vk_mem_alloc_hpp m).env
      = some (MBody.stringifyOf "VMA_HPP_NAMESPACE")
    ∧ Event.defined "VMA_HPP_NAMESPACE_STRING"
        (MBody.stringifyOf "VMA_HPP_NAMESPACE")
        ∈ (processTU vk_mem_alloc_hpp m).evs := by
  cases hn : isDefined m "VMA_HPP_NAMESPACE"
  · simp [processTU_fresh m hg hn, envFresh, envGuard, List.lookup]
  · simp [processTU_pre m hg hn, envPre, envGuard, List.lookup]

/-- Witness for C9: predefining the stringified-namespace macro to `mine`
does not survive inclusion. -/
theorem vma_hpp_namespace_string_unguarded_redefinition_witness :
    List.lookup "VMA_HPP_NAMESPACE_STRING"
        (processTU vk_mem_alloc_hpp
          [("VMA_HPP_NAMESPACE_STRING", MBody.text "mine")]).env
      = some (MBody.stringifyOf "VMA_HPP_NAMESPACE")
    ∧ Event.defined "VMA_HPP_NAMESPACE_STRING"
        (MBody.stringifyOf "VMA_HPP_NAMESPACE")
        ∈ (processTU vk_mem_alloc_hpp
            [("VMA_HPP_NAMESPACE_STRING", MBody.text "mine")]).evs :=
  vma_hpp_namespace_string_unguarded_redefinition
    [("VMA_HPP_NAMESPACE_STRING", MBody.text "mine")]
    (MBody.text "mine") (by decide) (by decide)

/-- C10: on any first inclusion, for each of the four wrapper headers,
the environment in force at the point the wrapper begins processing
defines both `VMA_HPP_NAMESPACE` and `VMA_HPP_NAMESPACE_STRING`, and the
inclusions of `vk_mem_alloc.h` and `vulkan/vulkan.hpp` occur strictly
earlier in the trace. -/
theorem wrapper_inclusion_ordering_invariant (m : Env)
    (hg : isDefined m "VULKAN_MEMORY_ALLOCATOR_HPP" = false) :
    (wrapperPaths.all fun p =>
      wrapperInvariantAt (processTU vk_mem_alloc_hpp m).evs p) = true := by
  cases hn : isDefined m "VMA_HPP_NAMESPACE"
  · simp [processTU_fresh m hg hn, wrapperPaths, wrapperInvariantAt,
      findIncluded, isDefined, envFresh, envGuard, Nat.blt]
  · simp [processTU_pre m hg hn, wrapperPaths, wrapperInvariantAt,
      findIncluded, isDefined, envPre, envGuard, Nat.blt, hn]

/-- Witness for C10 at the empty initial environment. -/
theorem wrapper_inclusion_ordering_invariant_witness :
    (wrapperPaths.all fun p =>
      wrapperInvariantAt (processTU vk_mem_alloc_hpp []).evs p) = true :=
  wrapper_inclusion_ordering_invariant [] (by decide)
